import Mathlib

/-!
Shallow embedding of the SafeNestAI core pipeline:
  - `src/backend/inference/risk_scorer.py` (RiskScorer.calculate_score,
    RiskScorer.aggregate_scores, the weight/age/climate tables), and
  - `src/backend/inference/temporal_tracker.py` (DefectTrack.growth_rate,
    calculate_iou, TemporalTracker.update).

Modelling conventions:
  - Python floats are modelled as rationals (all quantities involved are
    produced by field arithmetic on small decimal literals), Python ints as ℤ/ℕ.
  - Python `round` is banker's rounding (round-half-to-even), modelled by `pyRound`;
    `round(x, 2)` is modelled by `round2`.
  - A Python dict record is modelled as a structure whose possibly-absent keys
    are `Option` fields (`none` = key absent).
  - An uncaught Python exception is modelled by `Except`/`Option` failure values.
  - The external Snowflake Cortex layer (`_get_cortex_analytics` /
    `analyze_with_cortex`) is modelled by an explicit environment parameter
    `CortexEnv` describing what that layer yields during the call.
-/

/-- Python `round` to an integer: round half to even (banker's rounding). -/
def pyRound (q : ℚ) : ℤ :=
  let f := ⌊q⌋
  let r := q - f
  if r < 1/2 then f
  else if 1/2 < r then f + 1
  else if 2 ∣ f then f else f + 1

/-- Python `round(x, 2)`: round to two decimal places (half to even). -/
def round2 (q : ℚ) : ℚ := (pyRound (q * 100) : ℚ) / 100

/-- ASCII lower-casing of one character, as Python `str.lower` acts on the
ASCII class names used by the scorer. -/
def lowerChar (c : Char) : Char :=
  if 'A' ≤ c ∧ c ≤ 'Z' then Char.ofNat (c.toNat + 32) else c

/-- ASCII lower-casing of a string (Python `str.lower` on ASCII input). -/
def lowerStr (s : String) : String := ⟨s.data.map lowerChar⟩

/-- `DefectWeight` dataclass from risk_scorer.py. -/
structure DefectWeight where
  severity : ℚ
  area_multiplier : ℚ
  description : String
deriving DecidableEq

/-- The `'default'` entry of the `DEFECT_WEIGHTS` table. -/
def defaultWeight : DefectWeight :=
  ⟨2.0, 1.0, "Potential issue requiring assessment"⟩

/-- The `DEFECT_WEIGHTS` dict from risk_scorer.py, as an ordered key/value
table. -/
def DEFECT_WEIGHTS_TABLE : List (String × DefectWeight) :=
  [("crack", ⟨3.0, 1.5, "Structural cracks may indicate foundation or settling issues"⟩),
   ("leak", ⟨4.0, 2.0, "Active leaks cause progressive damage"⟩),
   ("water_damage", ⟨4.0, 2.0, "Water damage may hide mold or rot"⟩),
   ("damp", ⟨2.0, 1.2, "Dampness indicates moisture intrusion"⟩),
   ("dampness", ⟨2.0, 1.2, "Dampness indicates moisture intrusion"⟩),
   ("mold", ⟨5.0, 2.5, "Mold poses health hazards and spreads"⟩),
   ("mould", ⟨5.0, 2.5, "Mold poses health hazards and spreads"⟩),
   ("corrosion", ⟨3.0, 1.5, "Corrosion weakens structural elements"⟩),
   ("rust", ⟨3.0, 1.5, "Rust indicates moisture exposure"⟩),
   ("peeling", ⟨1.5, 1.0, "Peeling paint may expose surfaces"⟩),
   ("stain", ⟨1.0, 0.8, "Staining may indicate past water issues"⟩),
   ("electrical", ⟨4.5, 1.0, "Electrical issues pose fire/safety risk"⟩),
   ("spalling", ⟨3.5, 1.8, "Concrete spalling exposes rebar"⟩),
   ("deformation", ⟨4.0, 2.0, "Structural deformation is serious"⟩),
   ("default", defaultWeight)]

/-- Lookup in the `DEFECT_WEIGHTS` dict (`none` for a key not in the table). -/
def DEFECT_WEIGHTS (cls : String) : Option DefectWeight :=
  (DEFECT_WEIGHTS_TABLE.find? fun p => p.1 == cls).map fun p => p.2

/-- `DEFECT_WEIGHTS.get(defect_class, DEFECT_WEIGHTS['default'])`. -/
def weightFor (cls : String) : DefectWeight := (DEFECT_WEIGHTS cls).getD defaultWeight

/-- The `AGE_FACTORS` dict with the source's `.get(age_key, 0.0)` default
(`'post_2010'` maps to `0.0`, as does any unknown key). -/
def AGE_FACTORS (k : String) : ℚ :=
  if k = "pre_1950" then 15.0
  else if k = "pre_1970" then 10.0
  else if k = "1970_1990" then 5.0
  else if k = "1990_2010" then 2.0
  else 0.0

/-- The `CLIMATE_FACTORS` nested-dict lookup:
`CLIMATE_FACTORS.get(climate, {}).get(defect_class, 1.0)`. `'temperate'` and
any unknown climate give the empty adjustment table. -/
def climateAdj (climate cls : String) : ℚ :=
  if climate = "hot_humid" then
    (if cls = "mold" then 1.5 else if cls = "dampness" then 1.3
     else if cls = "rust" then 1.2 else 1.0)
  else if climate = "cold_dry" then
    (if cls = "crack" then 1.3 else if cls = "spalling" then 1.4 else 1.0)
  else if climate = "coastal" then
    (if cls = "rust" then 1.5 else if cls = "corrosion" then 1.5
     else if cls = "salt_damage" then 1.4 else 1.0)
  else 1.0

/-- One detection record (a Python dict). `none` models an absent key.
The source reads the keys `'class'`, `'confidence'`, `'bbox'`,
`'affected_area_percent'`. -/
structure Detection where
  className : Option String
  confidence : Option ℚ
  bbox : Option (List ℚ)
  affected_area_percent : Option ℚ
deriving DecidableEq

/-- The `user_context` dict: keys `'climate'` and `'building_age'`. -/
structure UserContext where
  climate : Option String
  building_age : Option String
deriving DecidableEq

/-- `RiskScorer.__init__` configuration, with the source's defaults. -/
structure RiskScorer where
  base_score : ℚ := 100.0
  max_defects_penalty : ℚ := 70.0
  confidence_weight : ℚ := 0.8
  enable_cortex_ai : Bool := true
deriving DecidableEq

/-- `CortexAnalysisResult` dataclass from snowflake_analytics.py (the fields
read by the scorer plus the remaining dataclass fields). -/
structure CortexAnalysisResult where
  risk_explanation : String
  severity_assessment : String
  recommended_actions : List String
  confidence_score : ℚ
  anomaly_detected : Bool
deriving DecidableEq

/-- What the external Snowflake Cortex layer yields during one
`calculate_score` call: `none` = no analytics object available
(`_get_cortex_analytics` returned `None`); `some none` = `analyze_with_cortex`
raised (caught, defaults kept); `some (some r)` = the analysis result `r`. -/
abbrev CortexEnv := Option (Option CortexAnalysisResult)

/-- Uncaught Python exceptions relevant to the scorer. The source never raises
`ValidationError`; the constructor exists so that the spec's claim about it is
statable. -/
inductive PyError where
  | zeroDivisionError
  | validationError
deriving DecidableEq

/-- One entry of the `breakdown` list built by `calculate_score`. -/
structure BreakdownEntry where
  defect_type : String
  confidence : ℚ
  penalty : ℚ
  severity : ℚ
  description : String
  climate_adjusted : Bool
deriving DecidableEq

/-- The `penalty_breakdown` sub-dict. The empty-detections result carries a
`'climate_factor'` key and no `'by_defect_type'`; the non-empty result carries
`'by_defect_type'` and no `'climate_factor'`. -/
structure PenaltyBreakdown where
  defects : ℚ
  age_factor : ℚ
  climate_factor : Option ℚ
  by_defect_type : Option (List (String × ℚ))
deriving DecidableEq

/-- The dict returned by `calculate_score`. Keys present in only one of the
two return shapes are `Option` fields. -/
structure ScoreResult where
  score : ℤ
  risk_level : String
  defect_count : ℕ
  total_penalty : Option ℚ
  penalty_breakdown : PenaltyBreakdown
  breakdown : List BreakdownEntry
  summary : String
  ai_explanation : Option String
  recommended_actions : List String
  user_context_applied : Option Bool
deriving DecidableEq

/-- Area of a bbox `[x1, y1, x2, y2]`: `(bbox[2]-bbox[0])*(bbox[3]-bbox[1])`.
Callers only use this on lists with at least 4 elements, so the `getD`
defaults are never hit there. -/
def boxAreaQ (b : List ℚ) : ℚ :=
  (b.getD 2 0 - b.getD 0 0) * (b.getD 3 0 - b.getD 1 0)

/-- `defect.get('class', 'unknown').lower()`. -/
def defect_class_of (d : Detection) : String := lowerStr (d.className.getD "unknown")

/-- `defect.get('confidence', 0.5)`. -/
def confidence_of (d : Detection) : ℚ := d.confidence.getD 0.5

/-- `confidence * confidence_weight + (1 - confidence_weight)`. -/
def confidence_factor (cw conf : ℚ) : ℚ := conf * cw + (1 - cw)

/-- The `area_factor` computation of `calculate_score`. `none` models the
`ZeroDivisionError` raised by `box_area / image_area` when `image_area == 0`.
A bbox that is not a 4-element list yields `area_factor = 1.0`. -/
def area_factor (image_area : ℤ) (d : Detection) : Option ℚ :=
  match d.affected_area_percent with
  | some p => some (p / 10)
  | none =>
    let bbox := d.bbox.getD [0, 0, 0, 0]
    if bbox.length = 4 then
      if image_area = 0 then none
      else some (boxAreaQ bbox / (image_area : ℚ) * 10)
    else some 1

/-- The full per-defect penalty
`(base_penalty + area_penalty) * confidence_factor * climate_mult`. -/
def defect_penalty (cw : ℚ) (climate : String) (image_area : ℤ) (d : Detection) :
    Option ℚ :=
  (area_factor image_area d).map fun af =>
    let cls := defect_class_of d
    let w := weightFor cls
    (w.severity * 3.0 + af * w.area_multiplier) *
      confidence_factor cw (confidence_of d) * climateAdj climate cls

/-- `penalty_by_type[cls] = penalty_by_type.get(cls, 0) + p`, preserving the
Python dict's insertion order. -/
def updAssoc (l : List (String × ℚ)) (k : String) (v : ℚ) : List (String × ℚ) :=
  if l.any (fun p => p.1 = k) then
    l.map (fun p => if p.1 = k then (p.1, p.2 + v) else p)
  else l ++ [(k, v)]

/-- The breakdown entry appended for one defect. -/
def entryFor (climate : String) (d : Detection) (p : ℚ) : BreakdownEntry :=
  let cls := defect_class_of d
  let w := weightFor cls
  { defect_type := cls
    confidence := round2 (confidence_of d)
    penalty := round2 p
    severity := w.severity
    description := w.description
    climate_adjusted := decide (climateAdj climate cls ≠ 1.0) }

/-- The `for defect in defects` accumulation loop of `calculate_score`:
threads `(total_penalty, breakdown, penalty_by_type)` and fails with
`ZeroDivisionError` exactly when a defect's bbox-derived area divides by a
zero `image_area`. -/
def scoreLoop (cw : ℚ) (climate : String) (image_area : ℤ) :
    List Detection → ℚ × List BreakdownEntry × List (String × ℚ) →
    Except PyError (ℚ × List BreakdownEntry × List (String × ℚ))
  | [], acc => .ok acc
  | d :: ds, acc =>
    match defect_penalty cw climate image_area d with
    | none => .error .zeroDivisionError
    | some p =>
      scoreLoop cw climate image_area ds
        (acc.1 + p, acc.2.1 ++ [entryFor climate d p],
          updAssoc acc.2.2 (defect_class_of d) p)

/-- The risk-level band (`<= 30` High, `<= 60` Moderate, else Low), shared
verbatim by `calculate_score` and `aggregate_scores` in the source. -/
def riskLevelOf (s : ℤ) : String :=
  if s ≤ 30 then "High Risk" else if s ≤ 60 then "Moderate Risk" else "Low Risk"

/-- The fixed summary sentence of each risk band. -/
def summaryOf (s : ℤ) : String :=
  if s ≤ 30 then "Critical defects detected. Immediate professional inspection recommended."
  else if s ≤ 60 then "Several defects detected. Consider addressing these issues soon."
  else "Minor issues detected. Property is in acceptable condition."

/-- The fixed recommended-actions list of each risk band. -/
def actionsOf (s : ℤ) : List String :=
  if s ≤ 30 then
    ["Schedule professional inspection immediately",
     "Document all affected areas with photos",
     "Consider temporary mitigation measures"]
  else if s ≤ 60 then
    ["Schedule professional assessment within 2 weeks",
     "Monitor affected areas for changes",
     "Obtain repair estimates"]
  else
    ["Include in regular maintenance schedule",
     "Monitor for deterioration over time"]

/-- The climate string `calculate_score` uses:
`user_context.get('climate', 'temperate') if user_context else 'temperate'`. -/
def climateOf (ctx : Option UserContext) : String :=
  match ctx with
  | some c => c.climate.getD "temperate"
  | none => "temperate"

/-- The building-age penalty `calculate_score` adds: `AGE_FACTORS` at
`user_context['building_age']` when that key is present, else `0.0`. -/
def agePenaltyOf (ctx : Option UserContext) : ℚ :=
  match ctx with
  | some c =>
    match c.building_age with
    | some k => AGE_FACTORS k
    | none => 0
  | none => 0

/-- The `base_result` returned by `calculate_score` when `defects` is empty. -/
def emptyScoreResult : ScoreResult :=
  { score := 100
    risk_level := "Low Risk"
    defect_count := 0
    total_penalty := none
    penalty_breakdown :=
      { defects := 0, age_factor := 0, climate_factor := some 0, by_defect_type := none }
    breakdown := []
    summary := "No defects detected. Property appears to be in good condition."
    ai_explanation := none
    recommended_actions := ["Continue regular maintenance"]
    user_context_applied := none }

/-- `RiskScorer.calculate_score(defects, image_area, user_context)`, with the
Cortex layer's behaviour supplied as the explicit environment `cortex`.
The source's default `image_area` is `640 * 480`. -/
def calculate_score (cfg : RiskScorer) (defects : List Detection) (image_area : ℤ)
    (user_context : Option UserContext) (cortex : CortexEnv) :
    Except PyError ScoreResult :=
  if defects.isEmpty then .ok emptyScoreResult
  else
    let climate := climateOf user_context
    match scoreLoop cfg.confidence_weight climate image_area defects (0, [], []) with
    | .error e => .error e
    | .ok acc =>
      let raw_total := acc.1
      let age_penalty := agePenaltyOf user_context
      let total_with_age := raw_total + age_penalty
      let defect_penalty_capped := min (total_with_age - age_penalty) cfg.max_defects_penalty
      let total_penalty := defect_penalty_capped + age_penalty
      let final_int := pyRound (max 0 (cfg.base_score - total_penalty))
      let env := if cfg.enable_cortex_ai then cortex else none
      let ai_explanation : Option String :=
        match env with
        | some (some r) => some r.risk_explanation
        | _ => none
      let recommended_actions :=
        match env with
        | some (some r) =>
          if r.recommended_actions.isEmpty then actionsOf final_int
          else r.recommended_actions
        | _ => actionsOf final_int
      .ok
        { score := final_int
          risk_level := riskLevelOf final_int
          defect_count := defects.length
          total_penalty := some (round2 total_penalty)
          penalty_breakdown :=
            { defects := round2 defect_penalty_capped
              age_factor := round2 age_penalty
              climate_factor := none
              by_defect_type := some (acc.2.2.map fun p => (p.1, round2 p.2)) }
          breakdown := acc.2.1
          summary := summaryOf final_int
          ai_explanation := ai_explanation
          recommended_actions := recommended_actions
          user_context_applied := some user_context.isSome }

/-- The dict returned by `aggregate_scores` on a non-empty frame list. -/
structure SessionAggregate where
  score : ℤ
  average_score : ℤ
  risk_level : String
  frames_analyzed : ℕ
  total_defects_found : ℕ
  defect_breakdown : List BreakdownEntry
deriving DecidableEq

/-- `aggregate_scores` returns one of two dict shapes: on an empty input it
returns `self.calculate_score([])` verbatim, otherwise the aggregate dict. -/
inductive AggOut where
  | fromEmpty (r : ScoreResult)
  | agg (a : SessionAggregate)
deriving DecidableEq

/-- Python `min` over a list, folded from an initial element. -/
def listMin : List ℤ → ℤ → ℤ
  | [], m => m
  | x :: xs, m => listMin xs (min m x)

/-- `RiskScorer.aggregate_scores(frame_scores)`. On the empty list the source
returns `self.calculate_score([])`, whose empty-detections path yields
`emptyScoreResult` for every configuration (see `calculate_score_nil`). -/
def aggregate_scores (frame_scores : List ScoreResult) : AggOut :=
  match frame_scores with
  | [] => .fromEmpty emptyScoreResult
  | f :: fs =>
    let all := f :: fs
    let min_score := listMin (fs.map fun s => s.score) f.score
    let avg_score : ℚ := ((all.map fun s => (s.score : ℚ)).sum) / (all.length : ℚ)
    let all_defects := all.foldl (fun acc s => acc ++ s.breakdown) []
    .agg
      { score := min_score
        average_score := pyRound avg_score
        risk_level := riskLevelOf min_score
        frames_analyzed := all.length
        total_defects_found := (all.map fun s => s.defect_count).sum
        defect_breakdown := all_defects }

/-- `DefectTrack` dataclass from temporal_tracker.py. -/
structure DefectTrack where
  track_id : ℕ
  defect_class : String
  first_frame : ℤ
  last_frame : ℤ
  frames_seen : ℕ
  max_confidence : ℚ
  areas : List ℚ
  bboxes : List (List ℚ)
deriving DecidableEq

/-- `DefectTrack.growth_rate`: average of the first `min(3, n)` area samples
versus the last `min(3, n)`; `0.0` on fewer than 2 samples or zero baseline. -/
def DefectTrack.growth_rate (t : DefectTrack) : ℚ :=
  if t.areas.length < 2 then 0
  else
    let n := min 3 t.areas.length
    let start_avg := (t.areas.take n).sum / (n : ℚ)
    let end_avg := (t.areas.drop (t.areas.length - n)).sum / (n : ℚ)
    if start_avg = 0 then 0 else (end_avg - start_avg) / start_avg

/-- `calculate_iou(box1, box2)` from temporal_tracker.py. Its callers always
pass lists with at least 4 elements, so the `getD` defaults are never hit. -/
def calculate_iou (box1 box2 : List ℚ) : ℚ :=
  let x1 := max (box1.getD 0 0) (box2.getD 0 0)
  let y1 := max (box1.getD 1 0) (box2.getD 1 0)
  let x2 := min (box1.getD 2 0) (box2.getD 2 0)
  let y2 := min (box1.getD 3 0) (box2.getD 3 0)
  let intersection := max 0 (x2 - x1) * max 0 (y2 - y1)
  let area1 := (box1.getD 2 0 - box1.getD 0 0) * (box1.getD 3 0 - box1.getD 1 0)
  let area2 := (box2.getD 2 0 - box2.getD 0 0) * (box2.getD 3 0 - box2.getD 1 0)
  let union := area1 + area2 - intersection
  if 0 < union then intersection / union else 0

/-- `TemporalTracker` state, with the source's constructor defaults
(`tracks = []`, `next_id = 1`, `iou_threshold = 0.3`, `max_dropout = 5`). -/
structure TemporalTracker where
  tracks : List DefectTrack := []
  next_id : ℕ := 1
  iou_threshold : ℚ := 0.3
  max_dropout : ℤ := 5
deriving DecidableEq

/-- A detection record that `TemporalTracker.update` can process without an
uncaught exception: the `'confidence'` and `'class'` keys are present (read by
the sort key and the matching/creation loops) and `'bbox'` is present with at
least 4 elements (indices 0..3 are read). -/
def wfDetB (d : Detection) : Bool :=
  d.confidence.isSome && d.className.isSome &&
    (match d.bbox with
     | some b => decide (4 ≤ b.length)
     | none => false)

/-- Stable insertion (descending by `'confidence'`): the inserted detection
goes before the first element whose confidence is ≤ its own. -/
def insertByConf (d : Detection) : List Detection → List Detection
  | [] => [d]
  | x :: xs =>
    if x.confidence.getD 0 ≤ d.confidence.getD 0 then d :: x :: xs
    else x :: insertByConf d xs

/-- `sorted(detections, key=lambda x: x['confidence'], reverse=True)`: Python's
sort is stable, so it is modelled by a stable descending insertion sort. -/
def sortByConfDesc : List Detection → List Detection
  | [] => []
  | d :: ds => insertByConf d (sortByConfDesc ds)

/-- Membership of a track in the `active_tracks` list:
`(frame_id - t.last_frame) <= self.max_dropout`. -/
def isActiveAt (max_dropout frame_id : ℤ) (t : DefectTrack) : Bool :=
  decide (frame_id - t.last_frame ≤ max_dropout)

/-- The `DefectTrack` created for an unmatched detection. -/
def newTrackFor (tid : ℕ) (frame_id : ℤ) (d : Detection) : DefectTrack :=
  let bbox := d.bbox.getD []
  { track_id := tid
    defect_class := d.className.getD ""
    first_frame := frame_id
    last_frame := frame_id
    frames_seen := 1
    max_confidence := d.confidence.getD 0
    areas := [boxAreaQ bbox]
    bboxes := [bbox] }

/-- The second loop of `update`: create new tracks (with `next_id` increment)
for detections whose index is not in `assigned_det_indices`. -/
def createNew (frame_id : ℤ) (assigned : List ℕ) :
    List (ℕ × Detection) → List DefectTrack × ℕ → List DefectTrack × ℕ
  | [], acc => acc
  | (i, d) :: rest, acc =>
    if i ∈ assigned then createNew frame_id assigned rest acc
    else createNew frame_id assigned rest
      (acc.1 ++ [newTrackFor acc.2 frame_id d], acc.2 + 1)

/-- `TemporalTracker.update(detections, frame_id)`. `none` models an uncaught
exception. The sort key raises `KeyError` for a detection lacking
`'confidence'`. When the sorted detections list is nonempty, the matching loop
reads the leading detection's bbox (raising for a missing or short bbox) and
then executes `if track in matched_tracks:` once per active track;
`DefectTrack` is a plain mutable `@dataclass`, so its `__hash__` is `None`
and this set-membership test raises `TypeError: unhashable type` as soon as
at least one active track exists — either way the call raises. An update
therefore completes only when the detections list is empty (no loop
iterations, tracker unchanged) or no track is active (the inner loop body
never runs, nothing matches): then every detection must carry `'class'` and a
4-element `'bbox'` and becomes a new track via the creation loop. -/
def TemporalTracker.update (tr : TemporalTracker) (detections : List Detection)
    (frame_id : ℤ) : Option TemporalTracker :=
  if detections.all (fun d => d.confidence.isSome) then
    let dets := sortByConfDesc detections
    if dets.isEmpty then some tr
    else if (tr.tracks.filter fun t => isActiveAt tr.max_dropout frame_id t).isEmpty then
      if dets.all wfDetB then
        let created := createNew frame_id [] dets.enum (tr.tracks, tr.next_id)
        some { tr with tracks := created.1, next_id := created.2 }
      else none
    else none
  else none

/-- One entry of `get_summary`'s per-track report list. -/
structure TrackInfo where
  id : ℕ
  cls : String
  frames_seen : ℕ
  growth_rate : ℚ
  is_growing : Bool
deriving DecidableEq

/-- `TemporalTracker.get_summary()`: `(total_tracks,
persistent_defects_count, growing_defects_count, tracks)`. -/
def TemporalTracker.get_summary (tr : TemporalTracker) :
    ℕ × ℕ × ℕ × List TrackInfo :=
  let persistent := tr.tracks.filter fun t => decide (3 ≤ t.frames_seen)
  let growing := persistent.filter fun t => decide ((0.05 : ℚ) < t.growth_rate)
  (tr.tracks.length, persistent.length, growing.length,
    persistent.map fun t =>
      { id := t.track_id
        cls := t.defect_class
        frames_seen := t.frames_seen
        growth_rate := round2 t.growth_rate
        is_growing := decide ((0.05 : ℚ) < t.growth_rate) })

/-- Sum of the per-defect penalties (`raw_defect_total`). -/
def sumPenalty (cw : ℚ) (climate : String) (A : ℤ) (ds : List Detection) : ℚ :=
  (ds.map fun d => (defect_penalty cw climate A d).getD 0).sum

/-- A detection whose numeric fields are within the data model's ranges:
confidence in `[0, 1]`, a supplied `affected_area_percent` nonnegative, and a
bbox-derived area nonnegative when it would be used. -/
def validDet (d : Detection) : Prop :=
  0 ≤ confidence_of d ∧ confidence_of d ≤ 1 ∧
    (∀ p, d.affected_area_percent = some p → 0 ≤ p) ∧
    (d.affected_area_percent = none → (d.bbox.getD [0, 0, 0, 0]).length = 4 →
      0 ≤ boxAreaQ (d.bbox.getD [0, 0, 0, 0]))

/-- The single detection of the spec's end-to-end example:
`{class: "mold", confidence: 0.9, affected_area_percent: 6}`. -/
def moldDet : Detection :=
  { className := some "mold", confidence := some 0.9, bbox := none,
    affected_area_percent := some 6 }

/-- A detection with a malformed (2-element) bbox and no
`affected_area_percent`. -/
def malformedDet : Detection :=
  { className := some "mold", confidence := some 0.9, bbox := some [0, 0],
    affected_area_percent := none }

/-- A detection carrying only a well-formed bbox, so that its area must be
derived from the bbox and the image area. -/
def bboxDet : Detection :=
  { className := some "mold", confidence := some 0.9, bbox := some [0, 0, 10, 10],
    affected_area_percent := none }

/-- A sample Cortex analysis result. -/
def cortexResA : CortexAnalysisResult :=
  { risk_explanation := "explanation A", severity_assessment := "Low",
    recommended_actions := ["action A"], confidence_score := 0.9,
    anomaly_detected := false }

/-- A second sample Cortex analysis result, differing from `cortexResA`. -/
def cortexResB : CortexAnalysisResult :=
  { risk_explanation := "explanation B", severity_assessment := "Low",
    recommended_actions := ["action B"], confidence_score := 0.9,
    anomaly_detected := false }

/-- A minimal per-frame score result carrying a given score, as consumed by
`aggregate_scores` (which reads `score`, `defect_count` and `breakdown`). -/
def sampleFrame (s : ℤ) : ScoreResult :=
  { score := s, risk_level := riskLevelOf s, defect_count := 0,
    total_penalty := none,
    penalty_breakdown := { defects := 0, age_factor := 0, climate_factor := none, by_defect_type := none },
    breakdown := [], summary := "", ai_explanation := none,
    recommended_actions := [], user_context_applied := none }

/-- A sample track with four area samples, for concrete evaluation of
`growth_rate`. -/
def sampleTrack : DefectTrack :=
  { track_id := 1, defect_class := "crack", first_frame := 0, last_frame := 3,
    frames_seen := 4, max_confidence := 0.9, areas := [1, 2, 3, 4],
    bboxes := [[0, 0, 1, 1]] }

/-- A sample pre-existing track, for concrete tracker updates. -/
def trackA : DefectTrack :=
  { track_id := 1, defect_class := "crack", first_frame := 0, last_frame := 0,
    frames_seen := 1, max_confidence := 0.5, areas := [100], bboxes := [[0, 0, 10, 10]] }

/-- A well-formed crack detection overlapping `trackA`'s last bbox. -/
def detA : Detection :=
  { className := some "crack", confidence := some 0.9, bbox := some [0, 0, 10, 10],
    affected_area_percent := none }

/-- A track whose `last_frame` is far before the current frame, so it is not
in the active set. -/
def trackStale : DefectTrack :=
  { track_id := 1, defect_class := "crack", first_frame := -10, last_frame := -10,
    frames_seen := 1, max_confidence := 0.5, areas := [100], bboxes := [[0, 0, 10, 10]] }

/-- The empty-detections fast path of `calculate_score` ignores the image
area, the user context and the Cortex environment. -/
theorem calculate_score_nil (cfg : RiskScorer) (A : ℤ) (ctx : Option UserContext)
    (env : CortexEnv) : calculate_score cfg [] A ctx env = .ok emptyScoreResult := rfl

theorem pyRound_bounds (q : ℚ) : ⌊q⌋ ≤ pyRound q ∧ pyRound q ≤ ⌊q⌋ + 1 := by
  unfold pyRound
  dsimp only
  split_ifs <;> omega

theorem pyRound_mono {x y : ℚ} (h : x ≤ y) : pyRound x ≤ pyRound y := by
  rcases lt_or_eq_of_le (Int.floor_le_floor h) with hf | hf
  · calc pyRound x ≤ ⌊x⌋ + 1 := (pyRound_bounds x).2
      _ ≤ ⌊y⌋ := by omega
      _ ≤ pyRound y := (pyRound_bounds y).1
  · unfold pyRound
    dsimp only
    rw [hf]
    have hr : x - (⌊y⌋ : ℚ) ≤ y - (⌊y⌋ : ℚ) := by linarith
    split_ifs <;> first | omega | linarith

theorem pyRound_intCast (n : ℤ) : pyRound (n : ℚ) = n := by
  unfold pyRound
  dsimp only
  rw [Int.floor_intCast]
  rw [if_pos (show (n : ℚ) - n < 1/2 by norm_num)]

theorem pyRound_eq_low {q : ℚ} {n : ℤ} (hf : ⌊q⌋ = n) (hr : q - n < 1/2) :
    pyRound q = n := by
  unfold pyRound
  dsimp only
  rw [hf, if_pos hr]

theorem weights_table_pos :
    ∀ p ∈ DEFECT_WEIGHTS_TABLE, 0 < p.2.severity ∧ 0 < p.2.area_multiplier := by
  simp [DEFECT_WEIGHTS_TABLE, defaultWeight]
  norm_num

theorem weightFor_pos (cls : String) :
    0 < (weightFor cls).severity ∧ 0 < (weightFor cls).area_multiplier := by
  unfold weightFor DEFECT_WEIGHTS
  cases hf : DEFECT_WEIGHTS_TABLE.find? fun p => p.1 == cls with
  | none => simp [defaultWeight]; norm_num
  | some p =>
    have := weights_table_pos p (List.mem_of_find?_eq_some hf)
    simpa using this

theorem climateAdj_pos (climate cls : String) : 0 < climateAdj climate cls := by
  unfold climateAdj
  split_ifs <;> norm_num

theorem age_nonneg (k : String) : 0 ≤ AGE_FACTORS k := by
  unfold AGE_FACTORS
  split_ifs <;> norm_num

theorem agePenaltyOf_nonneg (ctx : Option UserContext) : 0 ≤ agePenaltyOf ctx := by
  unfold agePenaltyOf
  split
  · split
    · apply age_nonneg
    · norm_num
  · norm_num

theorem sumPenalty_nil (cw : ℚ) (climate : String) (A : ℤ) :
    sumPenalty cw climate A [] = 0 := rfl

theorem sumPenalty_cons (cw : ℚ) (climate : String) (A : ℤ) (d : Detection)
    (ds : List Detection) :
    sumPenalty cw climate A (d :: ds) =
      (defect_penalty cw climate A d).getD 0 + sumPenalty cw climate A ds := by
  unfold sumPenalty
  simp

theorem sumPenalty_append (cw : ℚ) (climate : String) (A : ℤ)
    (l₁ l₂ : List Detection) :
    sumPenalty cw climate A (l₁ ++ l₂) =
      sumPenalty cw climate A l₁ + sumPenalty cw climate A l₂ := by
  unfold sumPenalty
  simp

theorem scoreLoop_nil (cw : ℚ) (climate : String) (A : ℤ)
    (acc : ℚ × List BreakdownEntry × List (String × ℚ)) :
    scoreLoop cw climate A [] acc = .ok acc := rfl

theorem scoreLoop_cons (cw : ℚ) (climate : String) (A : ℤ) (d : Detection)
    (ds : List Detection) (acc : ℚ × List BreakdownEntry × List (String × ℚ)) :
    scoreLoop cw climate A (d :: ds) acc =
      match defect_penalty cw climate A d with
      | none => .error .zeroDivisionError
      | some p =>
        scoreLoop cw climate A ds
          (acc.1 + p, acc.2.1 ++ [entryFor climate d p],
            updAssoc acc.2.2 (defect_class_of d) p) := rfl

/-- If every defect's penalty is defined, the accumulation loop succeeds and
its running total is the initial total plus the penalty sum. -/
theorem scoreLoop_ok (cw : ℚ) (climate : String) (A : ℤ) :
    ∀ (ds : List Detection), (∀ d ∈ ds, (defect_penalty cw climate A d).isSome) →
      ∀ acc, ∃ br pbt,
        scoreLoop cw climate A ds acc =
          .ok (acc.1 + sumPenalty cw climate A ds, br, pbt) := by
  intro ds
  induction ds with
  | nil =>
    intro _ acc
    exact ⟨acc.2.1, acc.2.2, by rw [scoreLoop_nil, sumPenalty_nil, add_zero]⟩
  | cons d ds ih =>
    intro h acc
    have hd := h d (by simp)
    rcases Option.isSome_iff_exists.mp hd with ⟨p, hp⟩
    obtain ⟨br, pbt, hrec⟩ := ih (fun x hx => h x (List.mem_cons_of_mem _ hx))
      (acc.1 + p, acc.2.1 ++ [entryFor climate d p], updAssoc acc.2.2 (defect_class_of d) p)
    refine ⟨br, pbt, ?_⟩
    rw [scoreLoop_cons, hp]
    dsimp only
    rw [hrec, sumPenalty_cons, hp]
    dsimp only [Option.getD]
    rw [add_assoc]

/-- Characterization of a successful non-empty `calculate_score` call: the
score is the rounding of `max(0, base_score - (min(raw_defect_total,
max_defects_penalty) + age_penalty))`, the risk level / summary are the bands
of that score, and the result ignores nothing else. -/
theorem calculate_score_spec (cfg : RiskScorer) (defects : List Detection)
    (A : ℤ) (ctx : Option UserContext) (env : CortexEnv) (hne : defects ≠ [])
    (hsome : ∀ d ∈ defects,
      (defect_penalty cfg.confidence_weight (climateOf ctx) A d).isSome) :
    ∃ r, calculate_score cfg defects A ctx env = .ok r ∧
      r.score = pyRound (max 0 (cfg.base_score -
        (min (sumPenalty cfg.confidence_weight (climateOf ctx) A defects)
            cfg.max_defects_penalty + agePenaltyOf ctx))) ∧
      r.risk_level = riskLevelOf r.score ∧
      r.defect_count = defects.length ∧
      r.summary = summaryOf r.score ∧
      r.penalty_breakdown.defects =
        round2 (min (sumPenalty cfg.confidence_weight (climateOf ctx) A defects)
          cfg.max_defects_penalty) ∧
      r.penalty_breakdown.age_factor = round2 (agePenaltyOf ctx) := by
  obtain ⟨br, pbt, hloop⟩ :=
    scoreLoop_ok cfg.confidence_weight (climateOf ctx) A defects hsome (0, [], [])
  unfold calculate_score
  rw [if_neg (by simp [hne])]
  simp only [hloop, zero_add, add_sub_cancel_right]
  exact ⟨_, rfl, rfl, rfl, rfl, rfl, rfl, rfl⟩

theorem area_factor_isSome (A : ℤ) (hA : A ≠ 0) (d : Detection) :
    (area_factor A d).isSome := by
  unfold area_factor
  rcases haf : d.affected_area_percent with _ | p
  · simp only [haf]
    by_cases h1 : (d.bbox.getD [0, 0, 0, 0]).length = 4
    · rw [if_pos h1, if_neg hA]
      rfl
    · rw [if_neg h1]
      rfl
  · simp only [haf]
    rfl

theorem defect_penalty_isSome (cw : ℚ) (climate : String) (A : ℤ) (hA : A ≠ 0)
    (d : Detection) : (defect_penalty cw climate A d).isSome := by
  unfold defect_penalty
  have hs := area_factor_isSome A hA d
  cases h : area_factor A d with
  | none => rw [h] at hs; exact absurd hs (by simp)
  | some af => rfl

theorem area_factor_nonneg {A : ℤ} (hA : 0 < A) {d : Detection} (hv : validDet d)
    {af : ℚ} (h : area_factor A d = some af) : 0 ≤ af := by
  unfold area_factor at h
  rcases haf : d.affected_area_percent with _ | p
  · rw [haf] at h
    dsimp only at h
    by_cases h1 : (d.bbox.getD [0, 0, 0, 0]).length = 4
    · rw [if_pos h1, if_neg (by omega : ¬A = 0)] at h
      injection h with h
      subst h
      have hbox := hv.2.2.2 haf h1
      have hApos : (0 : ℚ) < (A : ℚ) := by exact_mod_cast hA
      exact mul_nonneg (div_nonneg hbox hApos.le) (by norm_num)
    · rw [if_neg h1] at h
      injection h with h
      subst h
      norm_num
  · rw [haf] at h
    injection h with h
    subst h
    exact div_nonneg (hv.2.2.1 p haf) (by norm_num)

theorem confidence_factor_nonneg {cw c : ℚ} (h0 : 0 ≤ cw) (h1 : cw ≤ 1)
    (hc : 0 ≤ c) : 0 ≤ confidence_factor cw c := by
  unfold confidence_factor
  have := mul_nonneg hc h0
  linarith

theorem defect_penalty_nonneg {cw : ℚ} (h0 : 0 ≤ cw) (h1 : cw ≤ 1)
    (climate : String) {A : ℤ} (hA : 0 < A) {d : Detection} (hv : validDet d)
    {p : ℚ} (hp : defect_penalty cw climate A d = some p) : 0 ≤ p := by
  unfold defect_penalty at hp
  rcases Option.map_eq_some'.mp hp with ⟨af, haf, hpf⟩
  subst hpf
  have hsev := (weightFor_pos (defect_class_of d)).1
  have hmul := (weightFor_pos (defect_class_of d)).2
  have hafn := area_factor_nonneg hA hv haf
  have hcf := confidence_factor_nonneg h0 h1 hv.1
  have hcm := le_of_lt (climateAdj_pos climate (defect_class_of d))
  have hbase : 0 ≤ (weightFor (defect_class_of d)).severity * 3.0 +
      af * (weightFor (defect_class_of d)).area_multiplier := by positivity
  positivity

theorem sumPenalty_nonneg {cw : ℚ} (h0 : 0 ≤ cw) (h1 : cw ≤ 1)
    (climate : String) {A : ℤ} (hA : 0 < A) {ds : List Detection}
    (hv : ∀ d ∈ ds, validDet d) : 0 ≤ sumPenalty cw climate A ds := by
  unfold sumPenalty
  apply List.sum_nonneg
  intro x hx
  rcases List.mem_map.mp hx with ⟨d, hd, hdx⟩
  subst hdx
  cases hp : defect_penalty cw climate A d with
  | none => simp
  | some p =>
    have := defect_penalty_nonneg h0 h1 climate hA (hv d hd) hp
    simpa using this

theorem pyRound_eq_high {q : ℚ} {n : ℤ} (hf : ⌊q⌋ = n) (hr : 1/2 < q - n) :
    pyRound q = n + 1 := by
  unfold pyRound
  dsimp only
  rw [hf, if_neg (by linarith), if_pos hr]

theorem defect_penalty_isSome_iff (cw : ℚ) (climate : String) (A : ℤ)
    (d : Detection) :
    (defect_penalty cw climate A d).isSome = (area_factor A d).isSome := by
  unfold defect_penalty
  cases h : area_factor A d <;> rfl

theorem area_factor_isSome_of_shape (A : ℤ) (d : Detection)
    (h : d.affected_area_percent.isSome ∨ (d.bbox.getD [0, 0, 0, 0]).length ≠ 4) :
    (area_factor A d).isSome := by
  unfold area_factor
  rcases haf : d.affected_area_percent with _ | p
  · rcases h with h | h
    · rw [haf] at h; exact absurd h (by simp)
    · simp only [haf]; rw [if_neg h]; rfl
  · simp only [haf]; rfl

theorem listMin_le (l : List ℤ) (a : ℤ) :
    listMin l a ≤ a ∧ ∀ x ∈ l, listMin l a ≤ x := by
  induction l generalizing a with
  | nil => exact ⟨le_refl a, by simp⟩
  | cons y ys ih =>
    have h := ih (min a y)
    refine ⟨h.1.trans (min_le_left a y), ?_⟩
    intro x hx
    rcases List.mem_cons.mp hx with hxy | hxs
    · subst hxy
      exact h.1.trans (min_le_right a x)
    · exact h.2 x hxs

theorem listMin_mem (l : List ℤ) (a : ℤ) : listMin l a = a ∨ listMin l a ∈ l := by
  induction l generalizing a with
  | nil => left; rfl
  | cons y ys ih =>
    have hstep : listMin (y :: ys) a = listMin ys (min a y) := rfl
    rcases ih (min a y) with h | h
    · rcases min_choice a y with hm | hm
      · left; rw [hstep, h, hm]
      · right; rw [hstep, h, hm]; exact List.mem_cons_self y ys
    · right
      rw [hstep]
      exact List.mem_cons_of_mem _ h

/-- C10: `aggregate_scores` applied to an empty list returns the perfect
no-defect result of `calculate_score` on an empty detections list — score 100,
risk_level "Low Risk", defect_count 0 — for every configuration, image area,
user context and Cortex environment. -/
theorem C10_aggregate_empty (cfg : RiskScorer) (A : ℤ) (ctx : Option UserContext)
    (env : CortexEnv) :
    aggregate_scores [] = .fromEmpty emptyScoreResult ∧
      calculate_score cfg [] A ctx env = .ok emptyScoreResult ∧
      emptyScoreResult.score = 100 ∧
      emptyScoreResult.risk_level = "Low Risk" ∧
      emptyScoreResult.defect_count = 0 :=
  ⟨rfl, rfl, rfl, rfl, rfl⟩

/-- C2: for every non-empty list of per-frame score results,
`aggregate_scores` returns the minimum frame score as `score`, the
banker's-rounded arithmetic mean as `average_score`, and the risk level
recomputed from the minimum with the same `<= 30` / `<= 60` thresholds. -/
theorem C2_aggregate_min (frames : List ScoreResult) (hne : frames ≠ []) :
    ∃ a, aggregate_scores frames = .agg a ∧
      a.score ∈ frames.map (fun s => s.score) ∧
      (∀ s ∈ frames, a.score ≤ s.score) ∧
      a.average_score =
        pyRound ((frames.map fun s => (s.score : ℚ)).sum / (frames.length : ℚ)) ∧
      a.risk_level =
        (if a.score ≤ 30 then "High Risk"
         else if a.score ≤ 60 then "Moderate Risk" else "Low Risk") := by
  match frames with
  | [] => exact absurd rfl hne
  | f :: fs =>
    refine ⟨_, rfl, ?_, ?_, rfl, rfl⟩
    · rcases listMin_mem (fs.map fun s => s.score) f.score with h | h
      · rw [h]
        exact List.mem_map.mpr ⟨f, List.mem_cons_self f fs, rfl⟩
      · have hsub : (fs.map fun s => s.score) ⊆ ((f :: fs).map fun s => s.score) := by
          intro x hx
          simp only [List.map_cons, List.mem_cons]
          exact Or.inr hx
        exact hsub h
    · intro s hs
      rcases List.mem_cons.mp hs with hsf | hss
      · subst hsf
        exact (listMin_le (fs.map fun x => x.score) s.score).1
      · exact (listMin_le (fs.map fun x => x.score) f.score).2 _
          (List.mem_map.mpr ⟨s, hss, rfl⟩)

theorem C2_witness :
    ([sampleFrame 80, sampleFrame 40, sampleFrame 90] : List ScoreResult) ≠ [] ∧
    ∃ a, aggregate_scores [sampleFrame 80, sampleFrame 40, sampleFrame 90] = .agg a ∧
      a.score = 40 ∧ a.average_score = 70 ∧ a.risk_level = "Moderate Risk" := by
  refine ⟨by simp, ?_⟩
  obtain ⟨a, ha, hmem, hle, havg, hrisk⟩ :=
    C2_aggregate_min [sampleFrame 80, sampleFrame 40, sampleFrame 90] (by simp)
  have h40 : a.score ≤ 40 := by
    simpa [sampleFrame] using hle (sampleFrame 40) (by simp)
  have hs : a.score = 40 := by
    simp [sampleFrame] at hmem
    omega
  have havg' : a.average_score = 70 := by
    rw [havg,
      show (([sampleFrame 80, sampleFrame 40, sampleFrame 90].map
          fun s => (s.score : ℚ)).sum /
          (([sampleFrame 80, sampleFrame 40, sampleFrame 90].length : ℕ) : ℚ)) =
        ((70 : ℤ) : ℚ) by simp [sampleFrame]; norm_num]
    exact pyRound_intCast 70
  refine ⟨a, ha, hs, havg', ?_⟩
  rw [hrisk, hs]
  norm_num

/-- C1 counterexample: with `image_area = 0` and an empty defects list,
`calculate_score` returns a normal result (score 100) instead of failing with
a `ValidationError`. -/
theorem C1_counterexample :
    calculate_score {} [] 0 none none = .ok emptyScoreResult ∧
    calculate_score {} [] 0 none none ≠ .error PyError.validationError :=
  ⟨rfl, by rw [calculate_score_nil]; simp⟩

/-- C1 (amended): `calculate_score` performs no validation of `image_area` and
never raises a `ValidationError`. With `image_area ≤ 0` it returns a normal
result whenever every defect carries an `affected_area_percent` or a malformed
bbox (or the list is empty); when some defect's area must be derived from its
4-element bbox and `image_area = 0`, the division raises `ZeroDivisionError`,
not `ValidationError`. -/
theorem C1_amended :
    (∀ (defects : List Detection) (A : ℤ) (ctx : Option UserContext)
        (env : CortexEnv), A ≤ 0 →
      (∀ d ∈ defects, d.affected_area_percent.isSome ∨
        (d.bbox.getD [0, 0, 0, 0]).length ≠ 4) →
      ∃ r, calculate_score {} defects A ctx env = .ok r) ∧
    calculate_score {} [bboxDet] 0 none none = .error PyError.zeroDivisionError := by
  constructor
  · intro defects A ctx env _ hshape
    by_cases hne : defects = []
    · subst hne
      exact ⟨emptyScoreResult, calculate_score_nil _ _ _ _⟩
    · obtain ⟨r, hok, _⟩ := calculate_score_spec {} defects A ctx env hne
        (fun d hd => by
          rw [defect_penalty_isSome_iff]
          exact area_factor_isSome_of_shape A d (hshape d hd))
      exact ⟨r, hok⟩
  · have hpen : defect_penalty ({} : RiskScorer).confidence_weight
        (climateOf none) 0 bboxDet = none := by
      simp [defect_penalty, area_factor, bboxDet]
    unfold calculate_score
    rw [if_neg (by simp)]
    simp only [scoreLoop_cons, hpen]

theorem C1_witness :
    ((-5 : ℤ) ≤ 0) ∧ (∃ r, calculate_score {} [moldDet] (-5) none none = .ok r) :=
  ⟨by norm_num,
    C1_amended.1 [moldDet] (-5) none none (by norm_num)
      (fun d hd => by
        rw [List.mem_singleton] at hd
        subst hd
        exact Or.inl (by simp [moldDet]))⟩

/-- C3 counterexample: the claim's universal reading fails on the empty
defects list. With `building_age = "pre_1950"` (age penalty 15) and no
defects, the code short-circuits to the fixed score-100 result before the age
penalty is ever applied, while the claimed formula
`round(clamp(100 - (capped_defect_penalty + age_penalty), 0, 100))` gives 85. -/
theorem C3_counterexample :
    calculate_score {} [] (640 * 480) (some ⟨none, some "pre_1950"⟩) none =
      .ok emptyScoreResult ∧
    emptyScoreResult.score = 100 ∧
    pyRound (min 100 (max 0 (100 -
      (min (sumPenalty 0.8 (climateOf (some ⟨none, some "pre_1950"⟩))
          (640 * 480) []) 70 +
        agePenaltyOf (some ⟨none, some "pre_1950"⟩))))) = 85 ∧
    (100 : ℤ) ≠ 85 := by
  refine ⟨rfl, rfl, ?_, by decide⟩
  have hage : agePenaltyOf (some ⟨none, some "pre_1950"⟩) = 15 := by
    unfold agePenaltyOf AGE_FACTORS
    dsimp only
    rw [if_pos rfl]
    norm_num
  have hsum : sumPenalty 0.8 (climateOf (some ⟨none, some "pre_1950"⟩))
      (640 * 480) [] = 0 := rfl
  rw [hsum, hage]
  rw [show min (100 : ℚ) (max 0 (100 - (min 0 70 + 15))) = ((85 : ℤ) : ℚ) by
    push_cast
    norm_num [min_def, max_def]]
  exact pyRound_intCast 85

/-- C3 (amended): for every NON-EMPTY list of valid detections and positive
image area, `calculate_score` with the default configuration caps the summed
per-defect penalties at `max_defects_penalty = 70` before adding the
building-age penalty, adds the age penalty uncapped, and returns
`score = round(clamp(100 - (capped_defect_penalty + age_penalty), 0, 100))`;
an empty defects list instead short-circuits to the fixed score-100 result,
bypassing the age penalty. -/
theorem C3_cap_and_clamp :
    (∀ (defects : List Detection) (A : ℤ) (ctx : Option UserContext)
        (env : CortexEnv), defects ≠ [] → 0 < A →
      (∀ d ∈ defects, validDet d) →
      ∃ r, calculate_score {} defects A ctx env = .ok r ∧
        r.score = pyRound (min 100 (max 0 (100 -
          (min (sumPenalty 0.8 (climateOf ctx) A defects) 70 +
            agePenaltyOf ctx)))) ∧
        r.penalty_breakdown.defects =
          round2 (min (sumPenalty 0.8 (climateOf ctx) A defects) 70) ∧
        r.penalty_breakdown.age_factor = round2 (agePenaltyOf ctx)) ∧
    (∀ (A : ℤ) (ctx : Option UserContext) (env : CortexEnv),
      calculate_score {} [] A ctx env = .ok emptyScoreResult ∧
      emptyScoreResult.score = 100) := by
  constructor
  · intro defects A ctx env hne hA hv
    obtain ⟨r, hok, hscore, _, _, _, hpd, hpa⟩ :=
      calculate_score_spec {} defects A ctx env hne
        (fun d _ => defect_penalty_isSome _ _ A (by omega) d)
    have hcw : ({} : RiskScorer).confidence_weight = 0.8 := rfl
    have hbase : ({} : RiskScorer).base_score = 100 := by
      norm_num [RiskScorer.base_score]
    have hcap : ({} : RiskScorer).max_defects_penalty = 70 := by
      norm_num [RiskScorer.max_defects_penalty]
    rw [hcw, hbase, hcap] at hscore
    rw [hcw, hcap] at hpd
    have h1 : 0 ≤ sumPenalty 0.8 (climateOf ctx) A defects :=
      sumPenalty_nonneg (by norm_num) (by norm_num) _ hA hv
    have h3 : (0 : ℚ) ≤ min (sumPenalty 0.8 (climateOf ctx) A defects) 70 :=
      le_min h1 (by norm_num)
    have h2 := agePenaltyOf_nonneg ctx
    refine ⟨r, hok, ?_, hpd, hpa⟩
    rw [hscore]
    exact congrArg pyRound
      (min_eq_right (max_le (by norm_num) (by linarith))).symm
  · intro A ctx env
    exact ⟨rfl, rfl⟩

theorem round2_eval {q : ℚ} {n : ℤ} (h : q * 100 = (n : ℚ)) :
    round2 q = (n : ℚ) / 100 := by
  unfold round2
  rw [h, pyRound_intCast]

theorem moldDet_valid : validDet moldDet := by
  refine ⟨?_, ?_, ?_, ?_⟩
  · norm_num [confidence_of, moldDet]
  · norm_num [confidence_of, moldDet]
  · intro p hp
    have hp6 : p = 6 := by simpa [moldDet, eq_comm] using hp
    rw [hp6]
    norm_num
  · intro habs _
    simp [moldDet] at habs

theorem C3_witness :
    ([moldDet] : List Detection) ≠ [] ∧ (0 : ℤ) < 640 * 480 ∧
    (∃ r, calculate_score {} [moldDet] (640 * 480) none none = .ok r ∧
      r.score = pyRound (min 100 (max 0 (100 -
        (min (sumPenalty 0.8 (climateOf none) (640 * 480) [moldDet]) 70 +
          agePenaltyOf none)))) ∧
      r.penalty_breakdown.defects =
        round2 (min (sumPenalty 0.8 (climateOf none) (640 * 480) [moldDet]) 70) ∧
      r.penalty_breakdown.age_factor = round2 (agePenaltyOf none)) := by
  refine ⟨by simp, by norm_num, ?_⟩
  exact C3_cap_and_clamp.1 [moldDet] (640 * 480) none none (by simp) (by norm_num)
    (fun d hd => by
      rw [List.mem_singleton] at hd
      subst hd
      exact moldDet_valid)

theorem defect_class_of_mold : defect_class_of moldDet = "mold" := by decide

theorem weightFor_mold :
    weightFor "mold" = ⟨5.0, 2.5, "Mold poses health hazards and spreads"⟩ := by
  simp [weightFor, DEFECT_WEIGHTS, DEFECT_WEIGHTS_TABLE, List.find?]

theorem penalty_mold_hot_humid (A : ℤ) :
    defect_penalty 0.8 "hot_humid" A moldDet = some (2277 / 100) := by
  have haf : area_factor A moldDet = some (6 / 10) := by
    simp [area_factor, moldDet]
  unfold defect_penalty
  rw [haf]
  simp only [Option.map_some]
  rw [defect_class_of_mold, weightFor_mold]
  have hcm : climateAdj "hot_humid" "mold" = 1.5 := by simp [climateAdj]
  have hcf : confidence_of moldDet = 0.9 := by simp [confidence_of, moldDet]
  rw [hcm, hcf]
  norm_num [confidence_factor]

/-- C9: the spec's end-to-end example. One detection `{class: "mold",
confidence: 0.9, affected_area_percent: 6}` with climate `"hot_humid"` and the
default configuration gives the defect penalty
`(5*3 + 0.6*2.5) * (0.9*0.8 + 0.2) * 1.5 = 22.77` (below the 70 cap), no age
penalty, score `round(100 - 22.77) = 77` and risk level `"Low Risk"`. -/
theorem C9_end_to_end :
    ∃ r, calculate_score {} [moldDet] (640 * 480)
        (some ⟨some "hot_humid", none⟩) none = .ok r ∧
      r.score = 77 ∧ r.risk_level = "Low Risk" ∧
      r.penalty_breakdown.defects = 22.77 ∧
      r.penalty_breakdown.age_factor = 0 := by
  have hclim : climateOf (some ⟨some "hot_humid", none⟩) = "hot_humid" := rfl
  have hage : agePenaltyOf (some ⟨some "hot_humid", none⟩) = 0 := rfl
  obtain ⟨r, hok, hscore, hrisk, _, _, hpd, hpa⟩ :=
    calculate_score_spec {} [moldDet] (640 * 480) (some ⟨some "hot_humid", none⟩)
      none (by simp) (fun d _ => defect_penalty_isSome _ _ _ (by norm_num) d)
  have hcw : ({} : RiskScorer).confidence_weight = 0.8 := rfl
  have hsum : sumPenalty ({} : RiskScorer).confidence_weight
      (climateOf (some ⟨some "hot_humid", none⟩)) (640 * 480) [moldDet] =
      2277 / 100 := by
    rw [hclim, hcw, sumPenalty_cons, sumPenalty_nil, penalty_mold_hot_humid]
    norm_num
  have hmin : min (sumPenalty ({} : RiskScorer).confidence_weight
      (climateOf (some ⟨some "hot_humid", none⟩)) (640 * 480) [moldDet])
        ({} : RiskScorer).max_defects_penalty = 2277 / 100 := by
    rw [hsum]
    exact min_eq_left (by norm_num [RiskScorer.max_defects_penalty])
  have hscore77 : r.score = 77 := by
    rw [hscore, hmin, hage]
    rw [show (0 : ℚ) ⊔ (({} : RiskScorer).base_score - (2277 / 100 + 0)) =
        7723 / 100 by norm_num [RiskScorer.base_score]]
    exact pyRound_eq_low (by norm_num [Int.floor_eq_iff]) (by norm_num)
  refine ⟨r, hok, hscore77, ?_, ?_, ?_⟩
  · rw [hrisk, hscore77]
    norm_num [riskLevelOf]
  · rw [hpd, hmin, round2_eval (n := 2277) (by norm_num)]
    norm_num
  · rw [hpa, hage, round2_eval (n := 0) (by norm_num)]
    norm_num

/-- C4 counterexample: a single detection whose bbox has fewer than 4 elements
makes `Tracker.update` raise (an `IndexError` from `bbox[2]`), modelled as
`none` — it does not complete with a zero-IoU treatment. -/
theorem C4_counterexample :
    TemporalTracker.update {} [malformedDet] 1 = none := by
  unfold TemporalTracker.update
  rw [if_pos (by decide)]
  dsimp only
  rw [if_neg (by decide), if_pos (by decide), if_neg (by decide)]

/-- C4 (amended): the Scorer does complete without raising on a detection
whose bbox is not a valid 4-element box, but it treats it as
`area_factor = 1.0` (a nominal moderate area), not zero area; the Tracker, by
contrast, raises for such a detection rather than treating it as zero IoU. -/
theorem C4_amended :
    (∀ (d : Detection) (A : ℤ) (cw : ℚ) (climate : String),
      d.affected_area_percent = none → (d.bbox.getD [0, 0, 0, 0]).length ≠ 4 →
      area_factor A d = some 1 ∧ (defect_penalty cw climate A d).isSome) ∧
    (∃ r, calculate_score {} [malformedDet] (640 * 480) none none = .ok r ∧
      r.score = 84) ∧
    TemporalTracker.update {} [malformedDet] 1 = none := by
  refine ⟨?_, ?_, ?_⟩
  · intro d A cw climate haf hlen
    have h1 : area_factor A d = some 1 := by
      unfold area_factor
      rw [haf]
      dsimp only
      rw [if_neg hlen]
    refine ⟨h1, ?_⟩
    rw [defect_penalty_isSome_iff, h1]
    rfl
  · have hpen : defect_penalty ({} : RiskScorer).confidence_weight
        (climateOf none) (640 * 480) malformedDet = some (161 / 10) := by
      have haf : area_factor (640 * 480) malformedDet = some 1 := by
        unfold area_factor
        rw [show malformedDet.affected_area_percent = none from rfl]
        dsimp only
        rw [if_neg (by simp [malformedDet])]
      unfold defect_penalty
      rw [haf]
      simp only [Option.map_some]
      rw [show defect_class_of malformedDet = "mold" by decide, weightFor_mold]
      rw [show climateAdj (climateOf none) "mold" = 1 by
        rw [show climateOf none = "temperate" from rfl]
        unfold climateAdj
        rw [if_neg (by decide), if_neg (by decide), if_neg (by decide)]
        norm_num]
      rw [show confidence_of malformedDet = 0.9 by simp [confidence_of, malformedDet]]
      norm_num [confidence_factor]
    obtain ⟨r, hok, hscore, _⟩ :=
      calculate_score_spec {} [malformedDet] (640 * 480) none none (by simp)
        (fun d _ => defect_penalty_isSome _ _ _ (by norm_num) d)
    have hsum : sumPenalty ({} : RiskScorer).confidence_weight (climateOf none)
        (640 * 480) [malformedDet] = 161 / 10 := by
      rw [sumPenalty_cons, sumPenalty_nil, hpen]
      norm_num
    refine ⟨r, hok, ?_⟩
    rw [hscore, hsum]
    rw [show min (161 / 10 : ℚ) ({} : RiskScorer).max_defects_penalty +
        agePenaltyOf none = 161 / 10 by
      norm_num [RiskScorer.max_defects_penalty, agePenaltyOf]]
    rw [show (0 : ℚ) ⊔ (({} : RiskScorer).base_score - 161 / 10) = 839 / 10 by
      norm_num [RiskScorer.base_score]]
    rw [pyRound_eq_high (n := 83) (q := (839 : ℚ) / 10)
      (by norm_num [Int.floor_eq_iff]) (by norm_num)]
    norm_num
  · unfold TemporalTracker.update
    rw [if_pos (by decide)]
    dsimp only
    rw [if_neg (by decide), if_pos (by decide), if_neg (by decide)]

theorem C4_witness :
    malformedDet.affected_area_percent = none ∧
    (malformedDet.bbox.getD [0, 0, 0, 0]).length ≠ 4 ∧
    (area_factor (640 * 480) malformedDet = some 1 ∧
      (defect_penalty 0.8 "temperate" (640 * 480) malformedDet).isSome) :=
  ⟨rfl, by simp [malformedDet],
    C4_amended.1 malformedDet (640 * 480) 0.8 "temperate" rfl
      (by simp [malformedDet])⟩

/-- On a successful non-empty call, the `ai_explanation` field comes straight
from what the Cortex layer yielded (when `enable_cortex_ai` is set). -/
theorem calculate_score_ai (cfg : RiskScorer) (defects : List Detection) (A : ℤ)
    (ctx : Option UserContext) (env : CortexEnv) (hne : defects ≠ [])
    (hsome : ∀ d ∈ defects,
      (defect_penalty cfg.confidence_weight (climateOf ctx) A d).isSome) :
    ∃ r, calculate_score cfg defects A ctx env = .ok r ∧
      r.ai_explanation =
        (match (if cfg.enable_cortex_ai then env else none) with
         | some (some res) => some res.risk_explanation
         | _ => none) := by
  obtain ⟨br, pbt, hloop⟩ :=
    scoreLoop_ok cfg.confidence_weight (climateOf ctx) A defects hsome (0, [], [])
  unfold calculate_score
  rw [if_neg (by simp [hne])]
  simp only [hloop]
  exact ⟨_, rfl, rfl⟩

/-- C5 counterexample: two `calculate_score` calls with identical arguments
(defects, image_area, user_context) return different results when the
external Snowflake Cortex layer yields different analyses, so the result is
not a function of the arguments alone. -/
theorem C5_counterexample :
    calculate_score {} [moldDet] (640 * 480) none (some (some cortexResA)) ≠
      calculate_score {} [moldDet] (640 * 480) none (some (some cortexResB)) := by
  have hsome : ∀ d ∈ [moldDet],
      (defect_penalty ({} : RiskScorer).confidence_weight (climateOf none)
        (640 * 480) d).isSome :=
    fun d _ => defect_penalty_isSome _ _ _ (by norm_num) d
  obtain ⟨r1, h1, hai1⟩ :=
    calculate_score_ai {} [moldDet] (640 * 480) none (some (some cortexResA))
      (by simp) hsome
  obtain ⟨r2, h2, hai2⟩ :=
    calculate_score_ai {} [moldDet] (640 * 480) none (some (some cortexResB))
      (by simp) hsome
  intro h
  rw [h1, h2] at h
  injection h with h
  have hfield := congrArg ScoreResult.ai_explanation h
  rw [hai1, hai2] at hfield
  simp [cortexResA, cortexResB] at hfield

/-- C5 (amended): the score-relevant outputs of `calculate_score` — score,
risk level, defect count, total penalty, penalty breakdown, per-defect
breakdown, summary and the context flag — are a pure deterministic function
of the arguments, unaffected by the Cortex layer; only `ai_explanation` and
`recommended_actions` can depend on the external Cortex analysis, and whether
the call fails is likewise independent of it. -/
theorem C5_amended (cfg : RiskScorer) (defects : List Detection) (A : ℤ)
    (ctx : Option UserContext) (env₁ env₂ : CortexEnv) :
    (∀ r₁ r₂, calculate_score cfg defects A ctx env₁ = .ok r₁ →
      calculate_score cfg defects A ctx env₂ = .ok r₂ →
      r₁.score = r₂.score ∧ r₁.risk_level = r₂.risk_level ∧
      r₁.defect_count = r₂.defect_count ∧ r₁.total_penalty = r₂.total_penalty ∧
      r₁.penalty_breakdown = r₂.penalty_breakdown ∧
      r₁.breakdown = r₂.breakdown ∧ r₁.summary = r₂.summary ∧
      r₁.user_context_applied = r₂.user_context_applied) ∧
    (calculate_score cfg defects A ctx env₁ = .error .zeroDivisionError ↔
      calculate_score cfg defects A ctx env₂ = .error .zeroDivisionError) := by
  by_cases hemp : defects.isEmpty
  · constructor
    · intro r₁ r₂ h1 h2
      unfold calculate_score at h1 h2
      rw [if_pos hemp] at h1 h2
      cases h1
      cases h2
      exact ⟨rfl, rfl, rfl, rfl, rfl, rfl, rfl, rfl⟩
    · have hnil : defects = [] := List.isEmpty_iff.mp hemp
      subst hnil
      rw [calculate_score_nil, calculate_score_nil]
  · cases hl : scoreLoop cfg.confidence_weight (climateOf ctx) A defects
        (0, [], []) with
    | error e =>
      have herr : ∀ env, calculate_score cfg defects A ctx env = .error e := by
        intro env
        unfold calculate_score
        rw [if_neg hemp]
        simp only [hl]
      constructor
      · intro r₁ r₂ h1 h2
        rw [herr env₁] at h1
        cases h1
      · rw [herr env₁, herr env₂]
    | ok acc =>
      constructor
      · intro r₁ r₂ h1 h2
        unfold calculate_score at h1 h2
        rw [if_neg hemp] at h1 h2
        simp only [hl] at h1 h2
        injection h1 with h1
        injection h2 with h2
        subst h1
        subst h2
        exact ⟨rfl, rfl, rfl, rfl, rfl, rfl, rfl, rfl⟩
      · have hok2 : ∀ env, ∃ r, calculate_score cfg defects A ctx env = .ok r := by
          intro env
          unfold calculate_score
          rw [if_neg hemp]
          simp only [hl]
          exact ⟨_, rfl⟩
        obtain ⟨ra, hra⟩ := hok2 env₁
        obtain ⟨rb, hrb⟩ := hok2 env₂
        rw [hra, hrb]
        simp

theorem C5_witness :
    emptyScoreResult.score = emptyScoreResult.score ∧
    emptyScoreResult.risk_level = emptyScoreResult.risk_level ∧
    emptyScoreResult.defect_count = emptyScoreResult.defect_count ∧
    emptyScoreResult.total_penalty = emptyScoreResult.total_penalty ∧
    emptyScoreResult.penalty_breakdown = emptyScoreResult.penalty_breakdown ∧
    emptyScoreResult.breakdown = emptyScoreResult.breakdown ∧
    emptyScoreResult.summary = emptyScoreResult.summary ∧
    emptyScoreResult.user_context_applied = emptyScoreResult.user_context_applied :=
  (C5_amended {} [] 0 none none (some (some cortexResA))).1
    emptyScoreResult emptyScoreResult (calculate_score_nil _ _ _ _)
    (calculate_score_nil _ _ _ _)

/-- C6: a track's `growth_rate` is exactly 0 when it has fewer than 2 area
samples or the average of the first `min(3, n)` samples is 0; otherwise it is
`(end_avg - start_avg) / start_avg`, where `start_avg` and `end_avg` average
the first and last `min(3, n)` samples. -/
theorem C6_growth_rate (t : DefectTrack) :
    (t.areas.length < 2 → t.growth_rate = 0) ∧
    (2 ≤ t.areas.length →
      ((t.areas.take (min 3 t.areas.length)).sum /
          ((min 3 t.areas.length : ℕ) : ℚ) = 0 → t.growth_rate = 0) ∧
      ((t.areas.take (min 3 t.areas.length)).sum /
          ((min 3 t.areas.length : ℕ) : ℚ) ≠ 0 →
        t.growth_rate =
          ((t.areas.drop (t.areas.length - min 3 t.areas.length)).sum /
              ((min 3 t.areas.length : ℕ) : ℚ) -
            (t.areas.take (min 3 t.areas.length)).sum /
              ((min 3 t.areas.length : ℕ) : ℚ)) /
            ((t.areas.take (min 3 t.areas.length)).sum /
              ((min 3 t.areas.length : ℕ) : ℚ)))) := by
  constructor
  · intro h
    unfold DefectTrack.growth_rate
    rw [if_pos h]
  · intro h
    have hlt : ¬t.areas.length < 2 := by omega
    constructor
    · intro h0
      unfold DefectTrack.growth_rate
      rw [if_neg hlt]
      dsimp only
      rw [if_pos h0]
    · intro h0
      unfold DefectTrack.growth_rate
      rw [if_neg hlt]
      dsimp only
      rw [if_neg h0]

theorem C6_witness :
    2 ≤ sampleTrack.areas.length ∧
    (sampleTrack.areas.take (min 3 sampleTrack.areas.length)).sum /
        ((min 3 sampleTrack.areas.length : ℕ) : ℚ) ≠ 0 ∧
    sampleTrack.growth_rate = 1 / 2 := by
  have h2 : 2 ≤ sampleTrack.areas.length := by simp [sampleTrack]
  have hs : (sampleTrack.areas.take (min 3 sampleTrack.areas.length)).sum /
      ((min 3 sampleTrack.areas.length : ℕ) : ℚ) = 2 := by
    norm_num [sampleTrack]
  have he : (sampleTrack.areas.drop
        (sampleTrack.areas.length - min 3 sampleTrack.areas.length)).sum /
      ((min 3 sampleTrack.areas.length : ℕ) : ℚ) = 3 := by
    norm_num [sampleTrack]
  refine ⟨h2, by rw [hs]; norm_num, ?_⟩
  have h := ((C6_growth_rate sampleTrack).2 h2).2 (by rw [hs]; norm_num)
  rw [h, hs, he]
  norm_num

theorem penalty_getD_nonneg (climate : String) {A : ℤ} (hA : 0 < A)
    {d : Detection} (hv : validDet d) :
    0 ≤ (defect_penalty 0.8 climate A d).getD 0 := by
  rcases Option.isSome_iff_exists.mp
    (defect_penalty_isSome 0.8 climate A (by omega) d) with ⟨p, hp⟩
  rw [hp]
  exact defect_penalty_nonneg (by norm_num) (by norm_num) climate hA hv hp

theorem penalty_getD_conf_mono (climate : String) {A : ℤ} (hA : 0 < A)
    (d : Detection) (c' : ℚ) (hv : validDet d) (hc : confidence_of d ≤ c') :
    (defect_penalty 0.8 climate A d).getD 0 ≤
      (defect_penalty 0.8 climate A { d with confidence := some c' }).getD 0 := by
  have hs := defect_penalty_isSome 0.8 climate A (by omega) d
  rcases Option.isSome_iff_exists.mp hs with ⟨p, hp⟩
  have hAF : area_factor A { d with confidence := some c' } = area_factor A d := rfl
  have hCL : defect_class_of { d with confidence := some c' } = defect_class_of d := rfl
  have hCO : confidence_of { d with confidence := some c' } = c' := rfl
  unfold defect_penalty at hp ⊢
  rcases Option.map_eq_some'.mp hp with ⟨af, haf, hpe⟩
  rw [hp, hAF, haf]
  simp only [Option.map_some, Option.getD_some]
  rw [hCL, hCO, ← hpe]
  have hK : 0 ≤ (weightFor (defect_class_of d)).severity * 3.0 +
      af * (weightFor (defect_class_of d)).area_multiplier := by
    have h1 := (weightFor_pos (defect_class_of d)).1
    have h2 := (weightFor_pos (defect_class_of d)).2
    have h3 := area_factor_nonneg hA hv haf
    positivity
  have hcm := le_of_lt (climateAdj_pos climate (defect_class_of d))
  have hcf : confidence_factor 0.8 (confidence_of d) ≤ confidence_factor 0.8 c' := by
    unfold confidence_factor
    linarith
  exact mul_le_mul_of_nonneg_right (mul_le_mul_of_nonneg_left hcf hK) hcm

theorem penalty_getD_area_mono (climate : String) {A : ℤ} (hA : 0 < A)
    (d : Detection) {q q' : ℚ} (hq : d.affected_area_percent = some q)
    (hqq : q ≤ q') (hv : validDet d) :
    (defect_penalty 0.8 climate A d).getD 0 ≤
      (defect_penalty 0.8 climate A
        { d with affected_area_percent := some q' }).getD 0 := by
  have haf : area_factor A d = some (q / 10) := by
    unfold area_factor
    rw [hq]
  have haf' : area_factor A { d with affected_area_percent := some q' } =
      some (q' / 10) := rfl
  have hCL : defect_class_of { d with affected_area_percent := some q' } =
      defect_class_of d := rfl
  have hCO : confidence_of { d with affected_area_percent := some q' } =
      confidence_of d := rfl
  unfold defect_penalty
  rw [haf, haf']
  simp only [Option.map_some, Option.getD_some]
  rw [hCL, hCO]
  have hm := (weightFor_pos (defect_class_of d)).2
  have hcm := le_of_lt (climateAdj_pos climate (defect_class_of d))
  have hcf : 0 ≤ confidence_factor 0.8 (confidence_of d) :=
    confidence_factor_nonneg (by norm_num) (by norm_num) hv.1
  have hKK : (weightFor (defect_class_of d)).severity * 3.0 +
      q / 10 * (weightFor (defect_class_of d)).area_multiplier ≤
      (weightFor (defect_class_of d)).severity * 3.0 +
      q' / 10 * (weightFor (defect_class_of d)).area_multiplier := by
    have : q / 10 * (weightFor (defect_class_of d)).area_multiplier ≤
        q' / 10 * (weightFor (defect_class_of d)).area_multiplier :=
      mul_le_mul_of_nonneg_right (by linarith) (le_of_lt hm)
    linarith
  exact mul_le_mul_of_nonneg_right
    (mul_le_mul_of_nonneg_right hKK hcf) hcm

theorem sumPenalty_le_append (cw : ℚ) (climate : String) (A : ℤ)
    (l : List Detection) (d : Detection)
    (hp : 0 ≤ (defect_penalty cw climate A d).getD 0) :
    sumPenalty cw climate A l ≤ sumPenalty cw climate A (l ++ [d]) := by
  rw [sumPenalty_append, sumPenalty_cons, sumPenalty_nil]
  linarith

theorem sumPenalty_mono_mid (cw : ℚ) (climate : String) (A : ℤ)
    (pre post : List Detection) (d d' : Detection)
    (h : (defect_penalty cw climate A d).getD 0 ≤
      (defect_penalty cw climate A d').getD 0) :
    sumPenalty cw climate A (pre ++ d :: post) ≤
      sumPenalty cw climate A (pre ++ d' :: post) := by
  rw [sumPenalty_append, sumPenalty_append, sumPenalty_cons, sumPenalty_cons]
  linarith

theorem score_formula_antitone (ctx : Option UserContext) {s t : ℚ} (h : s ≤ t) :
    pyRound (max 0 (100 - (min t 70 + agePenaltyOf ctx))) ≤
      pyRound (max 0 (100 - (min s 70 + agePenaltyOf ctx))) := by
  apply pyRound_mono
  have h1 : min s 70 ≤ min t 70 := min_le_min h (le_refl _)
  exact max_le_max (le_refl 0) (by linarith)

/-- On a successful non-empty default-configuration call, the score equals the
rounded `max(0, 100 - (min(raw_defect_total, 70) + age_penalty))`. -/
theorem score_eq_formula {l : List Detection} {A : ℤ} {ctx : Option UserContext}
    {env : CortexEnv} {r : ScoreResult} (hne : l ≠ []) (hA : A ≠ 0)
    (hok : calculate_score {} l A ctx env = .ok r) :
    r.score = pyRound (max 0 (100 -
      (min (sumPenalty 0.8 (climateOf ctx) A l) 70 + agePenaltyOf ctx))) := by
  obtain ⟨r', hok', hscore', _⟩ := calculate_score_spec {} l A ctx env hne
    (fun d _ => defect_penalty_isSome _ _ A hA d)
  have hrr : r = r' := by
    rw [hok] at hok'
    injection hok'
  subst hrr
  rw [hscore']
  rw [show ({} : RiskScorer).base_score = 100 by norm_num [RiskScorer.base_score]]
  rw [show ({} : RiskScorer).max_defects_penalty = 70 by
    norm_num [RiskScorer.max_defects_penalty]]

/-- C8: with the default configuration, on valid detections and a positive
image area, the score of `calculate_score` is monotonically non-increasing
when (a) a defect is added to the list, (b) a single defect's confidence
increases, or (c) a single defect's affected area increases, all else equal. -/
theorem C8_monotonic (A : ℤ) (ctx : Option UserContext) (env : CortexEnv)
    (hA : 0 < A) :
    (∀ (l : List Detection) (d : Detection),
      (∀ x ∈ l, validDet x) → validDet d →
      ∀ r₁ r₂, calculate_score {} l A ctx env = .ok r₁ →
        calculate_score {} (l ++ [d]) A ctx env = .ok r₂ →
        r₂.score ≤ r₁.score) ∧
    (∀ (pre post : List Detection) (d : Detection) (c' : ℚ),
      validDet d → confidence_of d ≤ c' →
      ∀ r₁ r₂, calculate_score {} (pre ++ d :: post) A ctx env = .ok r₁ →
        calculate_score {} (pre ++ { d with confidence := some c' } :: post)
          A ctx env = .ok r₂ →
        r₂.score ≤ r₁.score) ∧
    (∀ (pre post : List Detection) (d : Detection) (q q' : ℚ),
      validDet d → d.affected_area_percent = some q → q ≤ q' →
      ∀ r₁ r₂, calculate_score {} (pre ++ d :: post) A ctx env = .ok r₁ →
        calculate_score {} (pre ++ { d with affected_area_percent := some q' } :: post)
          A ctx env = .ok r₂ →
        r₂.score ≤ r₁.score) := by
  have hAne : A ≠ 0 := by omega
  refine ⟨?_, ?_, ?_⟩
  · intro l d hvl hvd r₁ r₂ h1 h2
    have hs2 := score_eq_formula (l := l ++ [d]) (by simp) hAne h2
    by_cases hl : l = []
    · subst hl
      have h1' : emptyScoreResult = r₁ := by
        rw [calculate_score_nil] at h1
        injection h1
      rw [hs2, ← h1']
      have hsum : 0 ≤ sumPenalty 0.8 (climateOf ctx) A ([] ++ [d]) :=
        sumPenalty_nonneg (by norm_num) (by norm_num) _ hA
          (by intro x hx; simp at hx; subst hx; exact hvd)
      have hT : (0 : ℚ) ≤ min (sumPenalty 0.8 (climateOf ctx) A ([] ++ [d])) 70 +
          agePenaltyOf ctx := by
        have := agePenaltyOf_nonneg ctx
        have := le_min hsum (show (0 : ℚ) ≤ 70 by norm_num)
        linarith
      have h100 : max (0 : ℚ) (100 -
          (min (sumPenalty 0.8 (climateOf ctx) A ([] ++ [d])) 70 +
            agePenaltyOf ctx)) ≤ ((100 : ℤ) : ℚ) := by
        push_cast
        exact max_le (by norm_num) (by linarith)
      have hb := pyRound_mono h100
      rw [pyRound_intCast] at hb
      exact hb
    · have hs1 := score_eq_formula hl hAne h1
      rw [hs1, hs2]
      apply score_formula_antitone
      apply sumPenalty_le_append
      exact penalty_getD_nonneg _ hA hvd
  · intro pre post d c' hvd hc r₁ r₂ h1 h2
    have hs1 := score_eq_formula (by simp) hAne h1
    have hs2 := score_eq_formula (by simp) hAne h2
    rw [hs1, hs2]
    apply score_formula_antitone
    apply sumPenalty_mono_mid
    exact penalty_getD_conf_mono _ hA d c' hvd hc
  · intro pre post d q q' hvd hq hqq r₁ r₂ h1 h2
    have hs1 := score_eq_formula (by simp) hAne h1
    have hs2 := score_eq_formula (by simp) hAne h2
    rw [hs1, hs2]
    apply score_formula_antitone
    apply sumPenalty_mono_mid
    exact penalty_getD_area_mono _ hA d hq hqq hvd

theorem C8_witness :
    (0 : ℤ) < 1 ∧ validDet moldDet ∧
    ∃ r, calculate_score {} [moldDet] 1 none none = .ok r ∧
      r.score ≤ emptyScoreResult.score := by
  refine ⟨by norm_num, moldDet_valid, ?_⟩
  obtain ⟨r, hok, _⟩ := calculate_score_spec {} [moldDet] 1 none none (by simp)
    (fun d _ => defect_penalty_isSome _ _ _ (by norm_num) d)
  refine ⟨r, hok, ?_⟩
  exact (C8_monotonic 1 none none (by norm_num)).1 [] moldDet (by simp)
    moldDet_valid emptyScoreResult r (calculate_score_nil _ _ _ _) hok

theorem createNew_get? (fid : ℤ) (assigned : List ℕ) :
    ∀ (l : List (ℕ × Detection)) (acc : List DefectTrack × ℕ) (k : ℕ),
      k < acc.1.length →
      (createNew fid assigned l acc).1.get? k = acc.1.get? k := by
  intro l
  induction l with
  | nil => intro acc k _; rfl
  | cons p rest ih =>
    intro acc k hk
    rcases p with ⟨i, d⟩
    unfold createNew
    by_cases hi : i ∈ assigned
    · rw [if_pos hi]
      exact ih acc k hk
    · rw [if_neg hi]
      rw [ih (acc.1 ++ [newTrackFor acc.2 fid d], acc.2 + 1) k
        (by simp; omega)]
      exact List.get?_append hk

/-- C7: the tracker can never perform the matching the claim describes.
`DefectTrack` is a plain mutable `@dataclass` (so its `__hash__` is `None`),
and the matching loop's `track in matched_tracks` set-membership test hashes
the track: any `update` call with a nonempty detections list and at least one
active track raises `TypeError` instead of matching. Hence (a) every `update`
call that completes leaves all pre-existing tracks untouched — `frames_seen`
never increases by matching — and (b) at the very scenario the claim
describes (one active same-class track and one overlapping well-formed
detection, IoU 1 ≥ threshold) the call raises. -/
theorem C7_tracker_update :
    (∀ (tr : TemporalTracker) (dets : List Detection) (fid : ℤ)
        (st' : TemporalTracker),
      TemporalTracker.update tr dets fid = some st' →
      ∀ (j : ℕ) (t : DefectTrack), tr.tracks.get? j = some t →
        st'.tracks.get? j = some t) ∧
    TemporalTracker.update { tracks := [trackA], next_id := 2 } [detA] 1 = none := by
  constructor
  · intro tr dets fid st' hupd j t hj
    unfold TemporalTracker.update at hupd
    by_cases hconf : dets.all (fun d => d.confidence.isSome)
    · rw [if_pos hconf] at hupd
      dsimp only at hupd
      by_cases hnil : (sortByConfDesc dets).isEmpty
      · rw [if_pos hnil] at hupd
        injection hupd with h
        subst h
        exact hj
      · rw [if_neg hnil] at hupd
        by_cases hact : (tr.tracks.filter fun t =>
            isActiveAt tr.max_dropout fid t).isEmpty
        · rw [if_pos hact] at hupd
          by_cases hwf : (sortByConfDesc dets).all wfDetB
          · rw [if_pos hwf] at hupd
            injection hupd with h
            subst h
            show (createNew fid [] (sortByConfDesc dets).enum
              (tr.tracks, tr.next_id)).1.get? j = some t
            rw [createNew_get? fid [] (sortByConfDesc dets).enum
              (tr.tracks, tr.next_id) j (List.get?_eq_some.mp hj).1]
            exact hj
          · rw [if_neg hwf] at hupd
            exact absurd hupd (by simp)
        · rw [if_neg hact] at hupd
          exact absurd hupd (by simp)
    · rw [if_neg hconf] at hupd
      exact absurd hupd (by simp)
  · unfold TemporalTracker.update
    rw [if_pos (by decide)]
    dsimp only
    rw [if_neg (by decide), if_neg (by decide)]

theorem C7_witness :
    ∃ st', TemporalTracker.update { tracks := [trackStale], next_id := 2 }
        [detA] 1 = some st' ∧
      st'.tracks.get? 0 = some trackStale := by
  refine ⟨_, rfl, ?_⟩
  exact C7_tracker_update.1 { tracks := [trackStale], next_id := 2 } [detA] 1 _
    rfl 0 trackStale rfl
